import Mathlib

/-
  Verification of the OpenFPGA compact-Verilog netlist generation core.

  Part 1 embeds the `BasicPort` bit-range bookkeeping class
  (vpr7_x2p/vpr/SRC/fpga_x2p/base/device_port.h and its implementation):
  a port is a pair of `size_t` bounds `msb`/`lsb`; machine integers are
  modelled as `Nat` with the 64-bit bound `sizeTMax` made explicit at the
  one place the C code consults it (the overflow guard in `rotate`).

  Part 2 embeds the grid / switch-block / connection-block emission pass
  of the compact Verilog netlist writer (verilog_compact_netlist.c).
-/

/-- Maximum value of the C `size_t` type (64-bit), used by the overflow
guard `std::numeric_limits<size_t>::max() - msb_ < offset` in
`BasicPort::rotate`. -/
def sizeTMax : Nat := 2 ^ 64 - 1

/-- A basic port: most and least significant bit bounds, in the field
order of the C class (`msb_` then `lsb_`). -/
structure BasicPort where
  msb : Nat
  lsb : Nat
deriving DecidableEq, Repr

/-- Translation of `BasicPort::is_valid`: the port is valid unless
`msb_ < lsb_`. -/
def BasicPort.is_valid (p : BasicPort) : Bool :=
  if p.msb < p.lsb then false else true

/-- Translation of `BasicPort::get_width`: `msb_ - lsb_ + 1` for a valid
port, `0` for an invalid one. -/
def BasicPort.get_width (p : BasicPort) : Nat :=
  if p.is_valid = true then p.msb - p.lsb + 1 else 0

/-- Translation of `BasicPort::make_invalid`: sets `lsb_ = 1`, `msb_ = 0`. -/
def BasicPort.make_invalid : BasicPort :=
  { msb := 0, lsb := 1 }

/-- Translation of the default constructor `BasicPort()`, which sets
`lsb_ = 1; msb_ = 0`. -/
def BasicPort.init : BasicPort :=
  { msb := 0, lsb := 1 }

/-- Translation of `BasicPort::set_width(size_t width)`. -/
def BasicPort.set_width (width : Nat) : BasicPort :=
  if width = 0 then BasicPort.make_invalid
  else { msb := width - 1, lsb := 0 }

/-- Translation of the two-argument `BasicPort::set_width(size_t lsb, size_t msb)`
(overload resolved by a distinct Lean name). -/
def BasicPort.set_width_lsb_msb (lsb msb : Nat) : BasicPort :=
  if msb < lsb then BasicPort.make_invalid
  else { msb := msb, lsb := lsb }

/-- Translation of `BasicPort::reset`, which calls `make_invalid`. -/
def BasicPort.reset (_p : BasicPort) : BasicPort :=
  BasicPort.make_invalid

/-- Translation of `BasicPort::rotate(size_t offset)`: returns the C
function's boolean result paired with the port state after the call.
The guard `sizeTMax - p.msb < offset` is the source's overflow check;
after it passes, `lsb_ += offset; msb_ += offset` cannot wrap, so plain
`Nat` addition is exact. -/
def BasicPort.rotate (p : BasicPort) (offset : Nat) : Bool × BasicPort :=
  if offset = 0 ∨ p.get_width = 0 then (true, p)
  else if sizeTMax - p.msb < offset then (false, p)
  else (true, { msb := p.msb + offset, lsb := p.lsb + offset })

/-- Translation of `BasicPort::counter_rotate(size_t offset)`: the guard
`min + lsb_ < offset` (with `min = 0`) rejects offsets larger than `lsb_`;
after it passes, `lsb_ -= offset; msb_ -= offset` cannot wrap for a valid
port, so truncated `Nat` subtraction is exact. -/
def BasicPort.counter_rotate (p : BasicPort) (offset : Nat) : Bool × BasicPort :=
  if offset = 0 ∨ p.get_width = 0 then (true, p)
  else if p.lsb < offset then (false, p)
  else (true, { msb := p.msb - offset, lsb := p.lsb - offset })

/-- Kind of a physical block type, abstracting the `t_type_ptr` pointer
comparisons `IO_TYPE == type`, `EMPTY_TYPE == type`, `FILL_TYPE == type`
of the C code (heterogeneous blocks are every other type). -/
inductive BlockKind where
  | ioType
  | emptyType
  | fillType
  | heteroType
deriving DecidableEq, Repr

/-- One entry of the global `grid` array together with the fields of its
block type that the compact netlist pass reads:
`grid[x][y].offset`, `type->capacity`,
`type->pb_type->physical_mode_num_conf_bits` and
`type->pb_type->physical_mode_num_reserved_conf_bits`. -/
structure GridTile where
  kind : BlockKind
  offset : Nat
  capacity : Nat
  modeConfBits : Nat
  modeReservedConfBits : Nat
deriving DecidableEq, Repr

/-- The global `grid` array, as a total function on coordinates. -/
def Grid : Type := Nat → Nat → GridTile

/-- The fields of `t_sram_orgz_info` that
`compact_verilog_update_sram_orgz_info_grid_index` reads and writes:
the memory-bit counter, the BL/WL counters, and the per-coordinate
`grid_reserved_conf_bits` / `grid_conf_bits_lsb` / `grid_conf_bits_msb`
arrays (modelled as total functions). -/
structure SramOrgzInfo where
  numMemBit : Nat
  numBl : Nat
  numWl : Nat
  gridReservedConfBits : Nat × Nat → Nat
  gridConfBitsLsb : Nat × Nat → Nat
  gridConfBitsMsb : Nat × Nat → Nat

/-- Pointwise update of a coordinate-indexed array. -/
def upd (f : Nat × Nat → Nat) (c : Nat × Nat) (v : Nat) : Nat × Nat → Nat :=
  fun q => if q = c then v else f q

/-- Modelled from the spec: `get_sram_orgz_info_num_mem_bit` (defined
outside the given sources) reads the global bit-range counter of the
SRAM organization info. -/
def get_sram_orgz_info_num_mem_bit (info : SramOrgzInfo) : Nat :=
  info.numMemBit

/-- Translation of `compact_verilog_update_sram_orgz_info_grid_index`:
reads the current counter, stores the block type's reserved
configuration-bit count at the grid coordinate, sets the regular range
`lsb = counter`, `msb = counter + capacity * physical_mode_num_conf_bits`,
and advances the counter (and the BL/WL counters) to that `msb`.
The counter mutators `update_sram_orgz_info_num_mem_bit` /
`update_sram_orgz_info_num_blwl` are modelled from the spec as plain
writes of the passed values. -/
def compact_verilog_update_sram_orgz_info_grid_index (info : SramOrgzInfo)
    (t : GridTile) (c : Nat × Nat) : SramOrgzInfo :=
  let cur := get_sram_orgz_info_num_mem_bit info
  let msbVal := cur + t.capacity * t.modeConfBits
  { numMemBit := msbVal
    numBl := msbVal
    numWl := msbVal
    gridReservedConfBits := upd info.gridReservedConfBits c t.modeReservedConfBits
    gridConfBitsLsb := upd info.gridConfBitsLsb c cur
    gridConfBitsMsb := upd info.gridConfBitsMsb c msbVal }

/-- The tile stored at a coordinate. -/
def tileAt (g : Grid) (c : Nat × Nat) : GridTile :=
  g c.1 c.2

/-- Number of regular configuration bits a visit to this tile allocates:
`capacity * physical_mode_num_conf_bits`. -/
def tileSize (t : GridTile) : Nat :=
  t.capacity * t.modeConfBits

/-- Total regular configuration bits of a list of visited coordinates. -/
def sizesSum (g : Grid) (vs : List (Nat × Nat)) : Nat :=
  (vs.map fun c => tileSize (tileAt g c)).sum

/-- Sequential application of the per-tile SRAM-info update along a list
of visited coordinates. -/
def applyVisits (g : Grid) (info : SramOrgzInfo) (vs : List (Nat × Nat)) : SramOrgzInfo :=
  vs.foldl (fun acc c => compact_verilog_update_sram_orgz_info_grid_index acc (tileAt g c) c) info

/-- Value of the global counter just before the `i`-th visit of `vs`
(counting from 0). -/
def counterBeforeVisit (g : Grid) (info : SramOrgzInfo) (vs : List (Nat × Nat)) (i : Nat) : Nat :=
  (applyVisits g info (vs.take i)).numMemBit

/-- Interior tile coordinates in the order of the core-grid loops of
`compact_verilog_update_grid_spice_model_and_sram_orgz_info`:
`ix` is the outer loop over `1 .. nx`, `iy` the inner loop over `1 .. ny`. -/
def interiorCoords (nx ny : Nat) : List (Nat × Nat) :=
  (List.range' 1 nx).flatMap fun ix => (List.range' 1 ny).map fun iy => (ix, iy)

/-- Top I/O border in loop order: `iy = ny + 1`, `ix = 1 .. nx`. -/
def topCoords (nx ny : Nat) : List (Nat × Nat) :=
  (List.range' 1 nx).map fun ix => (ix, ny + 1)

/-- Right I/O border in loop order: `ix = nx + 1`, `iy = 1 .. ny`. -/
def rightCoords (nx ny : Nat) : List (Nat × Nat) :=
  (List.range' 1 ny).map fun iy => (nx + 1, iy)

/-- Bottom I/O border in loop order: `iy = 0`, `ix = 1 .. nx`. -/
def bottomCoords (nx : Nat) : List (Nat × Nat) :=
  (List.range' 1 nx).map fun ix => (ix, 0)

/-- Left I/O border in loop order: `ix = 0`, `iy = 1 .. ny`. -/
def leftCoords (ny : Nat) : List (Nat × Nat) :=
  (List.range' 1 ny).map fun iy => (0, iy)

/-- Whether the core-grid loop body actually processes an interior tile:
it bypasses `EMPTY_TYPE` tiles and tiles with a nonzero grid offset
(covered by a multi-tile block). -/
def processedTile (g : Grid) (c : Nat × Nat) : Bool :=
  !((tileAt g c).kind == BlockKind.emptyType) && (tileAt g c).offset == 0

/-- Coordinates visited by a successful run of the grid-index pass, in
visit order: processed interior tiles (row-major, `x` outer), then the
top, right, bottom and left I/O borders. -/
def fullVisitList (nx ny : Nat) (g : Grid) : List (Nat × Nat) :=
  (interiorCoords nx ny).filter (processedTile g)
    ++ topCoords nx ny ++ rightCoords nx ny ++ bottomCoords nx ++ leftCoords ny

/-- Outcome of `compact_verilog_update_grid_spice_model_and_sram_orgz_info`:
the early `vpr_printf(TIO_MESSAGE_ERROR)+return` path for a degenerate
device, an `assert` failure aborting the run (carrying the coordinates
visited before the abort), or normal completion with the visit list and
the final SRAM organization info. -/
inductive PassOutcome where
  | deviceTooSmall (info : SramOrgzInfo)
  | assertFail (visited : List (Nat × Nat))
  | ok (visits : List (Nat × Nat)) (info : SramOrgzInfo)

/-- Whether the pass completed normally. -/
def PassOutcome.isOk : PassOutcome → Bool
  | .ok _ _ => true
  | _ => false

/-- Whether the pass aborted on an `assert`. -/
def PassOutcome.isAssertFail : PassOutcome → Bool
  | .assertFail _ => true
  | _ => false

/-- Visit list of a completed pass (partial visits for an aborted one,
nothing for a rejected device). -/
def PassOutcome.okVisits : PassOutcome → List (Nat × Nat)
  | .ok vs _ => vs
  | .assertFail vs => vs
  | .deviceTooSmall _ => []

/-- Final SRAM organization info of a completed pass; the fallback value
is returned for an aborted run. -/
def PassOutcome.okInfo : PassOutcome → SramOrgzInfo → SramOrgzInfo
  | .ok _ i, _ => i
  | .deviceTooSmall i, _ => i
  | .assertFail _, d => d

/-- Core-grid loop body of the pass over a list of interior coordinates:
`assert(IO_TYPE != grid[ix][iy].type)` (failure = `.error` with the
visits so far), bypass `EMPTY_TYPE` and nonzero-offset tiles, otherwise
record the visit and update the SRAM info. -/
def visitInterior (g : Grid) :
    List (Nat × Nat) → List (Nat × Nat) × SramOrgzInfo →
    Except (List (Nat × Nat)) (List (Nat × Nat) × SramOrgzInfo)
  | [], acc => .ok acc
  | c :: rest, acc =>
    if (tileAt g c).kind = BlockKind.ioType then .error acc.1
    else if (tileAt g c).kind = BlockKind.emptyType then visitInterior g rest acc
    else if 0 < (tileAt g c).offset then visitInterior g rest acc
    else visitInterior g rest
      (acc.1 ++ [c], compact_verilog_update_sram_orgz_info_grid_index acc.2 (tileAt g c) c)

/-- I/O border loop body of the pass: `assert(IO_TYPE == grid[ix][iy].type)`
(failure = `.error`), then record the visit and update the SRAM info. -/
def visitIOBorder (g : Grid) :
    List (Nat × Nat) → List (Nat × Nat) × SramOrgzInfo →
    Except (List (Nat × Nat)) (List (Nat × Nat) × SramOrgzInfo)
  | [], acc => .ok acc
  | c :: rest, acc =>
    if (tileAt g c).kind = BlockKind.ioType then
      visitIOBorder g rest
        (acc.1 ++ [c], compact_verilog_update_sram_orgz_info_grid_index acc.2 (tileAt g c) c)
    else .error acc.1

/-- Translation of `compact_verilog_update_grid_spice_model_and_sram_orgz_info`:
rejects a device with `nx == 0 || ny == 0` (error message, no state
change), then walks the interior tiles (`ix` outer, `iy` inner) and the
top, right, bottom and left I/O borders in that order, updating the SRAM
organization info at every processed coordinate. Each visit also stamps
the SRAM/SCFF/IOPAD spice-model grid indices from the same counters
(`compact_verilog_update_one_spice_model_grid_index`); the visit list
records precisely those per-tile update calls. -/
def compact_verilog_update_grid_spice_model_and_sram_orgz_info
    (nx ny : Nat) (g : Grid) (info : SramOrgzInfo) : PassOutcome :=
  if nx = 0 ∨ ny = 0 then .deviceTooSmall info
  else
    match visitInterior g (interiorCoords nx ny) ([], info) with
    | .error vs => .assertFail vs
    | .ok acc1 =>
      match visitIOBorder g (topCoords nx ny) acc1 with
      | .error vs => .assertFail vs
      | .ok acc2 =>
        match visitIOBorder g (rightCoords nx ny) acc2 with
        | .error vs => .assertFail vs
        | .ok acc3 =>
          match visitIOBorder g (bottomCoords nx) acc3 with
          | .error vs => .assertFail vs
          | .ok acc4 =>
            match visitIOBorder g (leftCoords ny) acc4 with
            | .error vs => .assertFail vs
            | .ok acc5 => .ok acc5.1 acc5.2

/-- Translation of `generate_compact_verilog_grid_module_name_prefix`
(renamed: Lean reserves the final word of the C name): for `IO_TYPE`
blocks the border side must satisfy `-1 < border_side < 4` (`assert`,
modelled as `none`) and the side string plus `"_"` is appended to the
grid file-name stem; other block types get the bare stem. The stem
`grid_verilog_file_name_prefix` and `convert_side_index_to_string` are
external values, taken as parameters. -/
def generate_compact_verilog_grid_module_name_head (stem : String)
    (convert_side_index_to_string : Int → String)
    (kind : BlockKind) (border_side : Int) : Option String :=
  if kind = BlockKind.ioType then
    if -1 < border_side ∧ border_side < 4 then
      some (stem ++ convert_side_index_to_string border_side ++ "_")
    else none
  else some stem

/-- Ranges of the configuration ports printed by
`dump_compact_verilog_defined_one_grid` for the grid instance at a
coordinate: the reserved SRAM ports are always dumped over
`[0, grid_reserved_conf_bits[c] - 1]`, the regular SRAM local ports over
`[grid_conf_bits_lsb[c], grid_conf_bits_msb[c] - 1]` (both inclusive). -/
structure GridPortDump where
  reservedLsbMsb : Nat × Nat
  regularLsbMsb : Nat × Nat
deriving DecidableEq, Repr

/-- Translation of the configuration-port range computation of
`dump_compact_verilog_defined_one_grid`. -/
def dump_compact_verilog_defined_one_grid_conf_ranges
    (info : SramOrgzInfo) (c : Nat × Nat) : GridPortDump :=
  { reservedLsbMsb := (0, info.gridReservedConfBits c - 1)
    regularLsbMsb := (info.gridConfBitsLsb c, info.gridConfBitsMsb c - 1) }

/-- Statement of claim C5 as a predicate on a run: for every visited
tile, the reserved configuration-bit range (as dumped) starts where the
global counter stands before the visit, and the counter is advanced by
the reserved width plus the regular width. -/
def reservedAndRegularAllocatedFromCounter
    (g : Grid) (info : SramOrgzInfo) (vs : List (Nat × Nat)) : Prop :=
  ∀ i, i < vs.length →
    (dump_compact_verilog_defined_one_grid_conf_ranges
        (applyVisits g info vs) (vs.getD i (0, 0))).reservedLsbMsb.1 =
      counterBeforeVisit g info vs i ∧
    counterBeforeVisit g info vs (i + 1) =
      counterBeforeVisit g info vs i
        + (tileAt g (vs.getD i (0, 0))).modeReservedConfBits
        + tileSize (tileAt g (vs.getD i (0, 0)))

/-- Routing channel type of a connection block (`CHANX` / `CHANY`). -/
inductive ChanType where
  | chanx
  | chany
deriving DecidableEq, Repr

/-- What `dump_compact_verilog_defined_one_switch_box` prints for one
switch block: the Verilog module name of the unique mirror module
returned by `device_rr_gsb.get_sb_unique_module` for the block's own
coordinate, followed by the instance name generated from the block's own
coordinate. Names are abstract (`α`), since the generators are external. -/
structure SBEmission (α : Type) where
  moduleName : α
  instName : α
deriving DecidableEq, Repr

/-- What `dump_compact_verilog_defined_one_connection_box` prints for one
connection block of a given channel type. -/
structure CBEmission (α : Type) where
  cbType : ChanType
  coord : Nat × Nat
  moduleName : α
  instName : α
deriving DecidableEq, Repr

/-- GSB coordinates in the scan order of the dump loops
(`ix` outer over `sb_range.get_x()`, `iy` inner over `sb_range.get_y()`). -/
def gsbCoords (rx ry : Nat) : List (Nat × Nat) :=
  (List.range rx).flatMap fun ix => (List.range ry).map fun iy => (ix, iy)

/-- Translation of `dump_compact_verilog_defined_one_switch_box`:
module name from the representative (`get_sb_unique_module` of the
block's coordinate), instance name from the block's own coordinate. -/
def dump_compact_verilog_defined_one_switch_box {α : Type}
    (get_sb_unique_module : Nat × Nat → Nat × Nat)
    (gen_sb_verilog_module_name : Nat × Nat → α)
    (gen_sb_verilog_instance_name : Nat × Nat → α)
    (c : Nat × Nat) : SBEmission α :=
  { moduleName := gen_sb_verilog_module_name (get_sb_unique_module c)
    instName := gen_sb_verilog_instance_name c }

/-- Translation of `dump_compact_verilog_defined_switch_boxes`: one
switch-block instantiation per GSB coordinate, in scan order. -/
def dump_compact_verilog_defined_switch_boxes {α : Type} (rx ry : Nat)
    (get_sb_unique_module : Nat × Nat → Nat × Nat)
    (gen_sb_verilog_module_name : Nat × Nat → α)
    (gen_sb_verilog_instance_name : Nat × Nat → α) : List (SBEmission α) :=
  (List.range rx).flatMap fun ix =>
    (List.range ry).map fun iy =>
      dump_compact_verilog_defined_one_switch_box get_sb_unique_module
        gen_sb_verilog_module_name gen_sb_verilog_instance_name (ix, iy)

/-- Translation of `dump_compact_verilog_defined_one_connection_box`:
module name from the representative returned by
`device_rr_gsb.get_cb_unique_module` for the channel type and the
block's coordinate, instance name from the block's own coordinate. -/
def dump_compact_verilog_defined_one_connection_box {α : Type}
    (get_cb_unique_module : ChanType → Nat × Nat → Nat × Nat)
    (gen_cb_verilog_module_name : ChanType → Nat × Nat → α)
    (gen_cb_verilog_instance_name : ChanType → Nat × Nat → α)
    (t : ChanType) (c : Nat × Nat) : CBEmission α :=
  { cbType := t
    coord := c
    moduleName := gen_cb_verilog_module_name t (get_cb_unique_module t c)
    instName := gen_cb_verilog_instance_name t c }

/-- Translation of `dump_compact_verilog_defined_connection_boxes`: for
every GSB coordinate (scan order `ix` outer, `iy` inner) a CHANX
connection box is instantiated exactly when both the device-level
`is_cb_exist(CHANX, cb_coordinator)` and the per-GSB
`rr_gsb.is_cb_exist(CHANX)` checks pass, then likewise for CHANY.
The existence predicates and the CB coordinator are external, taken as
parameters. -/
def dump_compact_verilog_defined_connection_boxes {α : Type} (rx ry : Nat)
    (is_cb_exist : ChanType → Nat × Nat → Bool)
    (get_cb_coordinator : Nat × Nat → ChanType → Nat × Nat)
    (gsb_is_cb_exist : Nat × Nat → ChanType → Bool)
    (get_cb_unique_module : ChanType → Nat × Nat → Nat × Nat)
    (gen_cb_verilog_module_name : ChanType → Nat × Nat → α)
    (gen_cb_verilog_instance_name : ChanType → Nat × Nat → α) : List (CBEmission α) :=
  (List.range rx).flatMap fun ix =>
    (List.range ry).flatMap fun iy =>
      (if is_cb_exist ChanType.chanx (get_cb_coordinator (ix, iy) ChanType.chanx)
          && gsb_is_cb_exist (ix, iy) ChanType.chanx then
        [dump_compact_verilog_defined_one_connection_box get_cb_unique_module
          gen_cb_verilog_module_name gen_cb_verilog_instance_name ChanType.chanx (ix, iy)]
      else [])
      ++
      (if is_cb_exist ChanType.chany (get_cb_coordinator (ix, iy) ChanType.chany)
          && gsb_is_cb_exist (ix, iy) ChanType.chany then
        [dump_compact_verilog_defined_one_connection_box get_cb_unique_module
          gen_cb_verilog_module_name gen_cb_verilog_instance_name ChanType.chany (ix, iy)]
      else [])

/-- A CLB-like tile used by concrete witness devices. -/
def tileCLB : GridTile :=
  { kind := BlockKind.fillType, offset := 0, capacity := 1,
    modeConfBits := 3, modeReservedConfBits := 2 }

/-- An I/O pad tile used by concrete witness devices. -/
def tileIOPad : GridTile :=
  { kind := BlockKind.ioType, offset := 0, capacity := 1,
    modeConfBits := 3, modeReservedConfBits := 2 }

/-- An empty tile used by concrete witness devices. -/
def tileEmpty : GridTile :=
  { kind := BlockKind.emptyType, offset := 0, capacity := 0,
    modeConfBits := 0, modeReservedConfBits := 0 }

/-- A concrete 1×1 device: one CLB at (1,1), I/O pads on the four border
positions, empty elsewhere. -/
def gridW : Grid := fun x y =>
  if x = 1 ∧ y = 1 then tileCLB
  else if (x = 1 ∧ y = 2) ∨ (x = 2 ∧ y = 1) ∨ (x = 1 ∧ y = 0) ∨ (x = 0 ∧ y = 1) then tileIOPad
  else tileEmpty

/-- The same 1×1 device but with an I/O pad (illegally) at the interior
coordinate (1,1). -/
def gridBad : Grid := fun x y =>
  if x = 1 ∧ y = 1 then tileIOPad else gridW x y

/-- A fresh SRAM organization info with all counters and arrays zero. -/
def infoW : SramOrgzInfo :=
  { numMemBit := 0, numBl := 0, numWl := 0
    gridReservedConfBits := fun _ => 0
    gridConfBitsLsb := fun _ => 0
    gridConfBitsMsb := fun _ => 0 }

/-- Visit list produced by the grid-index pass (partial if it aborted,
empty if the device was rejected). -/
def passVisits (nx ny : Nat) (g : Grid) (info : SramOrgzInfo) : List (Nat × Nat) :=
  (compact_verilog_update_grid_spice_model_and_sram_orgz_info nx ny g info).okVisits

/-- Final SRAM organization info of the grid-index pass (the initial
info if the pass did not complete normally). -/
def passInfo (nx ny : Nat) (g : Grid) (info : SramOrgzInfo) : SramOrgzInfo :=
  (compact_verilog_update_grid_spice_model_and_sram_orgz_info nx ny g info).okInfo info

/-- Existence oracle answering `true` everywhere (a witness device where
every connection block exists). -/
def cbAllExist : ChanType → Nat × Nat → Bool := fun _ _ => true

/-- Identity CB coordinator used by witness devices. -/
def cbCoordId : Nat × Nat → ChanType → Nat × Nat := fun c _ => c

/-- Per-GSB existence oracle answering `true` everywhere. -/
def gsbAllExist : Nat × Nat → ChanType → Bool := fun _ _ => true

/-- Identity representative lookup for connection blocks (every block is
its own unique module) used by witness devices. -/
def cbUniqueId : ChanType → Nat × Nat → Nat × Nat := fun _ c => c

/-- Coordinate-pair name generator for connection blocks used by witness
devices. -/
def cbNamePair : ChanType → Nat × Nat → Nat × Nat := fun _ c => c

/-- Identity representative lookup for switch blocks used by witness
devices. -/
def sbUniqueId : Nat × Nat → Nat × Nat := fun c => c

/-- Coordinate-pair name generator for switch blocks used by witness
devices. -/
def sbNamePair : Nat × Nat → Nat × Nat := fun c => c

/-- C8: every `BasicPort` operation maintains the validity invariant:
a port is valid exactly when `lsb ≤ msb`; `get_width` returns
`msb - lsb + 1` for a valid port and `0` for an invalid one; the default
constructor, `reset`, `set_width 0` and `set_width lsb msb` with
`lsb > msb` all produce the invalid port `(lsb = 1, msb = 0)` of width 0;
and `set_width w` with `w > 0` produces `lsb = 0`, `msb = w - 1`, hence
width exactly `w`. -/
theorem basic_port_validity_invariant :
    (∀ p : BasicPort, p.is_valid = true ↔ p.lsb ≤ p.msb) ∧
    (∀ p : BasicPort, p.lsb ≤ p.msb → p.get_width = p.msb - p.lsb + 1) ∧
    (∀ p : BasicPort, ¬ p.lsb ≤ p.msb → p.get_width = 0) ∧
    BasicPort.init.lsb = 1 ∧ BasicPort.init.msb = 0 ∧ BasicPort.init.get_width = 0 ∧
    (∀ p : BasicPort, p.reset = BasicPort.init) ∧
    BasicPort.set_width 0 = BasicPort.init ∧
    (∀ l m : Nat, m < l → BasicPort.set_width_lsb_msb l m = BasicPort.init) ∧
    (∀ w : Nat, 0 < w →
      (BasicPort.set_width w).lsb = 0 ∧ (BasicPort.set_width w).msb = w - 1 ∧
      (BasicPort.set_width w).get_width = w) := by
  refine ⟨?_, ?_, ?_, rfl, rfl, by decide, fun p => rfl, by decide, ?_, ?_⟩
  · intro p
    simp only [BasicPort.is_valid]
    split <;> simp <;> omega
  · intro p h
    simp only [BasicPort.get_width, BasicPort.is_valid]
    split <;> simp_all <;> omega
  · intro p h
    simp only [BasicPort.get_width, BasicPort.is_valid]
    split <;> simp_all
  · intro l m h
    simp only [BasicPort.set_width_lsb_msb]
    split <;> simp_all [BasicPort.make_invalid, BasicPort.init] <;> omega
  · intro w hw
    have hw0 : ¬ w = 0 := by omega
    refine ⟨?_, ?_, ?_⟩ <;>
      simp [BasicPort.set_width, hw0, BasicPort.get_width, BasicPort.is_valid] <;>
      omega

theorem basic_port_validity_invariant_witness :
    0 < 3 ∧ (BasicPort.set_width 3).lsb = 0 ∧ (BasicPort.set_width 3).msb = 2 ∧
    (BasicPort.set_width 3).get_width = 3 :=
  ⟨by decide, basic_port_validity_invariant.2.2.2.2.2.2.2.2.2 3 (by decide)⟩

/-- C9: `rotate` and `counter_rotate` are inverse on success: for a valid
port and any offset, if `rotate offset` succeeds then `counter_rotate offset`
on the resulting port also succeeds and restores the original bounds
exactly; moreover with offset 0, or on a zero-width (invalid) port, both
operations succeed and leave the port unchanged. -/
theorem rotate_counter_rotate_inverse :
    (∀ (p : BasicPort) (offset : Nat), p.lsb ≤ p.msb → (p.rotate offset).1 = true →
      ((p.rotate offset).2.counter_rotate offset).1 = true ∧
      ((p.rotate offset).2.counter_rotate offset).2 = p) ∧
    (∀ (p : BasicPort) (offset : Nat), offset = 0 ∨ p.get_width = 0 →
      p.rotate offset = (true, p) ∧ p.counter_rotate offset = (true, p)) := by
  constructor
  · intro p offset hv _hr
    have hw : p.get_width = p.msb - p.lsb + 1 := by
      simp [BasicPort.get_width, BasicPort.is_valid]
      omega
    by_cases h0 : offset = 0
    · subst h0
      simp [BasicPort.rotate, BasicPort.counter_rotate]
    · by_cases hover : sizeTMax - p.msb < offset
      · exfalso
        simp [BasicPort.rotate, h0, hw, hover] at _hr
      · have hrot : p.rotate offset =
            (true, { msb := p.msb + offset, lsb := p.lsb + offset }) := by
          simp [BasicPort.rotate, h0, hw, hover]
        rw [hrot]
        have hw' : ({ msb := p.msb + offset, lsb := p.lsb + offset } :
            BasicPort).get_width ≠ 0 := by
          simp [BasicPort.get_width, BasicPort.is_valid]
          omega
        have hlt : ¬ p.lsb + offset < offset := by omega
        constructor
        · simp [BasicPort.counter_rotate, h0, hw', hlt]
        · simp [BasicPort.counter_rotate, h0, hw', hlt]
  · intro p offset h
    constructor
    · simp [BasicPort.rotate, h]
    · simp [BasicPort.counter_rotate, h]

theorem rotate_counter_rotate_inverse_witness :
    2 ≤ 5 ∧ ((BasicPort.mk 5 2).rotate 3).1 = true ∧
    (((BasicPort.mk 5 2).rotate 3).2.counter_rotate 3).1 = true ∧
    (((BasicPort.mk 5 2).rotate 3).2.counter_rotate 3).2 = BasicPort.mk 5 2 :=
  ⟨by decide, by decide,
    (rotate_counter_rotate_inverse.1 (BasicPort.mk 5 2) 3 (by decide) (by decide)).1,
    (rotate_counter_rotate_inverse.1 (BasicPort.mk 5 2) 3 (by decide) (by decide)).2⟩

/-- C10: for a valid port and nonzero offset, `rotate offset` fails exactly
when `msb + offset` would exceed the maximum `size_t` value and
`counter_rotate offset` fails exactly when `offset > lsb`; a failing call
leaves the port unchanged, and a succeeding call shifts both bounds by
exactly `offset` (upward for `rotate`, downward for `counter_rotate`). -/
theorem rotate_bounds_atomic :
    ∀ (p : BasicPort) (offset : Nat), p.lsb ≤ p.msb → p.msb ≤ sizeTMax → offset ≠ 0 →
      ((p.rotate offset).1 = false ↔ sizeTMax < p.msb + offset) ∧
      ((p.counter_rotate offset).1 = false ↔ offset > p.lsb) ∧
      ((p.rotate offset).1 = false → (p.rotate offset).2 = p) ∧
      ((p.counter_rotate offset).1 = false → (p.counter_rotate offset).2 = p) ∧
      ((p.rotate offset).1 = true →
        (p.rotate offset).2.lsb = p.lsb + offset ∧ (p.rotate offset).2.msb = p.msb + offset) ∧
      ((p.counter_rotate offset).1 = true →
        (p.counter_rotate offset).2.lsb + offset = p.lsb ∧
        (p.counter_rotate offset).2.msb + offset = p.msb) := by
  intro p offset hv hm h0
  have hw : p.get_width = p.msb - p.lsb + 1 := by
    simp [BasicPort.get_width, BasicPort.is_valid]
    omega
  by_cases hover : sizeTMax - p.msb < offset
  · by_cases hlsb : p.lsb < offset
    · refine ⟨?_, ?_, ?_, ?_, ?_, ?_⟩ <;>
        simp [BasicPort.rotate, BasicPort.counter_rotate, h0, hw, hover, hlsb] <;> omega
    · refine ⟨?_, ?_, ?_, ?_, ?_, ?_⟩ <;>
        simp [BasicPort.rotate, BasicPort.counter_rotate, h0, hw, hover, hlsb] <;> omega
  · by_cases hlsb : p.lsb < offset
    · refine ⟨?_, ?_, ?_, ?_, ?_, ?_⟩ <;>
        simp [BasicPort.rotate, BasicPort.counter_rotate, h0, hw, hover, hlsb] <;> omega
    · refine ⟨?_, ?_, ?_, ?_, ?_, ?_⟩ <;>
        simp [BasicPort.rotate, BasicPort.counter_rotate, h0, hw, hover, hlsb] <;> omega

theorem rotate_bounds_atomic_witness :
    2 ≤ 5 ∧ ((BasicPort.mk 5 2).counter_rotate 3).1 = false ∧
    ((BasicPort.mk 5 2).counter_rotate 3).2 = BasicPort.mk 5 2 := by
  have h := rotate_bounds_atomic (BasicPort.mk 5 2) 3 (by decide) (by decide) (by decide)
  exact ⟨by decide, h.2.1.mpr (by decide), h.2.2.2.1 (h.2.1.mpr (by decide))⟩

/-- Reading an updated array at the updated coordinate. -/
theorem upd_same (f : Nat × Nat → Nat) (c : Nat × Nat) (v : Nat) : upd f c v c = v := by
  simp [upd]

/-- Reading an updated array elsewhere. -/
theorem upd_ne (f : Nat × Nat → Nat) (c q : Nat × Nat) (v : Nat) (h : q ≠ c) :
    upd f c v q = f q := by
  simp [upd, h]

/-- Unfolding one visit. -/
theorem applyVisits_cons (g : Grid) (info : SramOrgzInfo) (c : Nat × Nat)
    (vs : List (Nat × Nat)) :
    applyVisits g info (c :: vs) =
      applyVisits g (compact_verilog_update_sram_orgz_info_grid_index info (tileAt g c) c) vs :=
  rfl

/-- Visits compose by list append. -/
theorem applyVisits_append (g : Grid) (info : SramOrgzInfo) (l₁ l₂ : List (Nat × Nat)) :
    applyVisits g info (l₁ ++ l₂) = applyVisits g (applyVisits g info l₁) l₂ := by
  simp [applyVisits, List.foldl_append]

theorem sizesSum_nil (g : Grid) : sizesSum g [] = 0 := rfl

theorem sizesSum_cons (g : Grid) (c : Nat × Nat) (vs : List (Nat × Nat)) :
    sizesSum g (c :: vs) = tileSize (tileAt g c) + sizesSum g vs := by
  simp [sizesSum]

theorem sizesSum_append (g : Grid) (l₁ l₂ : List (Nat × Nat)) :
    sizesSum g (l₁ ++ l₂) = sizesSum g l₁ + sizesSum g l₂ := by
  simp [sizesSum]

/-- The global counter after a list of visits: initial value plus the
total regular configuration-bit count of the visited tiles. -/
theorem applyVisits_numMemBit (g : Grid) (vs : List (Nat × Nat)) :
    ∀ info : SramOrgzInfo,
      (applyVisits g info vs).numMemBit = info.numMemBit + sizesSum g vs := by
  induction vs with
  | nil => intro info; simp [applyVisits, sizesSum]
  | cons c rest ih =>
    intro info
    rw [applyVisits_cons, ih, sizesSum_cons]
    simp [compact_verilog_update_sram_orgz_info_grid_index,
      get_sram_orgz_info_num_mem_bit, tileSize]
    ring

/-- Visits at other coordinates do not change the per-coordinate arrays. -/
theorem applyVisits_not_mem (g : Grid) (vs : List (Nat × Nat)) :
    ∀ (info : SramOrgzInfo) (c : Nat × Nat), c ∉ vs →
      (applyVisits g info vs).gridConfBitsLsb c = info.gridConfBitsLsb c ∧
      (applyVisits g info vs).gridConfBitsMsb c = info.gridConfBitsMsb c ∧
      (applyVisits g info vs).gridReservedConfBits c = info.gridReservedConfBits c := by
  induction vs with
  | nil => intro info c _; exact ⟨rfl, rfl, rfl⟩
  | cons d rest ih =>
    intro info c hc
    have hcd : c ≠ d := fun h => hc (h ▸ List.mem_cons_self d rest)
    have hcr : c ∉ rest := fun h => hc (List.mem_cons_of_mem d h)
    have h := ih (compact_verilog_update_sram_orgz_info_grid_index info (tileAt g d) d) c hcr
    rw [applyVisits_cons]
    refine ⟨?_, ?_, ?_⟩
    · rw [h.1]
      simp [compact_verilog_update_sram_orgz_info_grid_index, upd, hcd]
    · rw [h.2.1]
      simp [compact_verilog_update_sram_orgz_info_grid_index, upd, hcd]
    · rw [h.2.2]
      simp [compact_verilog_update_sram_orgz_info_grid_index, upd, hcd]

/-- Reading the final arrays at the `i`-th visited coordinate of a
repetition-free visit list: the regular range starts at the counter
value before that visit and spans the tile's regular bit count; the
reserved entry stores the tile's reserved bit count. -/
theorem applyVisits_read (g : Grid) (vs : List (Nat × Nat)) :
    ∀ (info : SramOrgzInfo) (i : Nat), vs.Nodup → i < vs.length →
      (applyVisits g info vs).gridConfBitsLsb (vs.getD i (0, 0)) =
        info.numMemBit + sizesSum g (vs.take i) ∧
      (applyVisits g info vs).gridConfBitsMsb (vs.getD i (0, 0)) =
        info.numMemBit + sizesSum g (vs.take i) + tileSize (tileAt g (vs.getD i (0, 0))) ∧
      (applyVisits g info vs).gridReservedConfBits (vs.getD i (0, 0)) =
        (tileAt g (vs.getD i (0, 0))).modeReservedConfBits := by
  induction vs with
  | nil => intro info i _ hi; simp at hi
  | cons c rest ih =>
    intro info i hnd hi
    rcases List.nodup_cons.mp hnd with ⟨hcm, hnd'⟩
    cases i with
    | zero =>
      have hstab := applyVisits_not_mem g rest
        (compact_verilog_update_sram_orgz_info_grid_index info (tileAt g c) c) c hcm
      rw [List.getD_cons_zero, applyVisits_cons]
      rw [List.take_zero, sizesSum_nil]
      refine ⟨?_, ?_, ?_⟩
      · rw [hstab.1]
        simp [compact_verilog_update_sram_orgz_info_grid_index,
          get_sram_orgz_info_num_mem_bit, upd_same, tileSize]
      · rw [hstab.2.1]
        simp [compact_verilog_update_sram_orgz_info_grid_index,
          get_sram_orgz_info_num_mem_bit, upd_same, tileSize]
      · rw [hstab.2.2]
        simp [compact_verilog_update_sram_orgz_info_grid_index,
          get_sram_orgz_info_num_mem_bit, upd_same, tileSize]
    | succ j =>
      have hj : j < rest.length := by simpa using hi
      have h := ih (compact_verilog_update_sram_orgz_info_grid_index info (tileAt g c) c)
        j hnd' hj
      rw [List.getD_cons_succ, applyVisits_cons, List.take_succ_cons, sizesSum_cons]
      have hcnt : (compact_verilog_update_sram_orgz_info_grid_index info
          (tileAt g c) c).numMemBit = info.numMemBit + tileSize (tileAt g c) := by
        simp [compact_verilog_update_sram_orgz_info_grid_index,
          get_sram_orgz_info_num_mem_bit, tileSize]
      rw [hcnt] at h
      refine ⟨?_, ?_, ?_⟩
      · rw [h.1]
        omega
      · rw [h.2.1]
        omega
      · rw [h.2.2]

/-- Prefix sums of visit sizes grow by exactly the `i`-th tile's size. -/
theorem sizesSum_take_succ (g : Grid) (vs : List (Nat × Nat)) :
    ∀ i, i < vs.length →
      sizesSum g (vs.take (i + 1)) =
        sizesSum g (vs.take i) + tileSize (tileAt g (vs.getD i (0, 0))) := by
  induction vs with
  | nil => intro i hi; simp at hi
  | cons c rest ih =>
    intro i hi
    cases i with
    | zero => simp [sizesSum_cons, sizesSum_nil]
    | succ j =>
      have hj : j < rest.length := by simpa using hi
      rw [List.take_succ_cons, List.take_succ_cons, sizesSum_cons, sizesSum_cons,
        List.getD_cons_succ, ih j hj]
      omega

/-- Prefix sums of visit sizes are monotone. -/
theorem sizesSum_take_mono (g : Grid) (vs : List (Nat × Nat)) (i j : Nat) (h : i ≤ j) :
    sizesSum g (vs.take i) ≤ sizesSum g (vs.take j) := by
  have hsplit : vs.take j = vs.take i ++ (vs.drop i).take (j - i) := by
    rw [← List.take_add]
    congr 1
    omega
  rw [hsplit, sizesSum_append]
  omega

/-- Every bit position below the total is covered by some visit's range. -/
theorem sizesSum_cover (g : Grid) (vs : List (Nat × Nat)) :
    ∀ k, k < sizesSum g vs →
      ∃ i, i < vs.length ∧ sizesSum g (vs.take i) ≤ k ∧
        k < sizesSum g (vs.take i) + tileSize (tileAt g (vs.getD i (0, 0))) := by
  induction vs with
  | nil => intro k hk; simp [sizesSum] at hk
  | cons c rest ih =>
    intro k hk
    by_cases h : k < tileSize (tileAt g c)
    · refine ⟨0, by simp, ?_, ?_⟩
      · simp [sizesSum_nil]
      · simpa [sizesSum_nil] using h
    · rw [sizesSum_cons] at hk
      obtain ⟨i, hi, h1, h2⟩ := ih (k - tileSize (tileAt g c)) (by omega)
      refine ⟨i + 1, by simpa using Nat.succ_lt_succ hi, ?_, ?_⟩
      · rw [List.take_succ_cons, sizesSum_cons]
        omega
      · rw [List.take_succ_cons, sizesSum_cons, List.getD_cons_succ]
        omega

/-- The counter before the `i`-th visit equals the initial counter plus
the sizes of the earlier visits. -/
theorem counterBeforeVisit_eq (g : Grid) (info : SramOrgzInfo)
    (vs : List (Nat × Nat)) (i : Nat) :
    counterBeforeVisit g info vs i = info.numMemBit + sizesSum g (vs.take i) := by
  rw [counterBeforeVisit, applyVisits_numMemBit]

/-- When no interior tile is an I/O tile, the core-grid loop completes
and processes exactly the non-empty zero-offset tiles, in order. -/
theorem visitInterior_ok (g : Grid) (coords : List (Nat × Nat)) :
    ∀ acc : List (Nat × Nat) × SramOrgzInfo,
      (∀ c ∈ coords, (tileAt g c).kind ≠ BlockKind.ioType) →
      visitInterior g coords acc =
        .ok (acc.1 ++ coords.filter (processedTile g),
             applyVisits g acc.2 (coords.filter (processedTile g))) := by
  induction coords with
  | nil => intro acc _; simp [visitInterior, applyVisits]
  | cons c rest ih =>
    intro acc h
    have hio : (tileAt g c).kind ≠ BlockKind.ioType := h c (List.mem_cons_self c rest)
    have hrest : ∀ d ∈ rest, (tileAt g d).kind ≠ BlockKind.ioType :=
      fun d hd => h d (List.mem_cons_of_mem c hd)
    by_cases hemp : (tileAt g c).kind = BlockKind.emptyType
    · have hp : processedTile g c = false := by simp [processedTile, hemp]
      rw [visitInterior, if_neg hio, if_pos hemp, ih acc hrest]
      simp [hp]
    · by_cases hoff : 0 < (tileAt g c).offset
      · have hp : processedTile g c = false := by
          simp [processedTile, hemp]
          omega
        rw [visitInterior, if_neg hio, if_neg hemp, if_pos hoff, ih acc hrest]
        simp [hp]
      · have hp : processedTile g c = true := by
          simp [processedTile, hemp]
          omega
        rw [visitInterior, if_neg hio, if_neg hemp, if_neg hoff, ih _ hrest]
        simp [hp, applyVisits_cons]

/-- A completed core-grid loop certifies that no visited interior tile
was an I/O tile. -/
theorem visitInterior_no_io (g : Grid) (coords : List (Nat × Nat)) :
    ∀ acc res, visitInterior g coords acc = .ok res →
      ∀ c ∈ coords, (tileAt g c).kind ≠ BlockKind.ioType := by
  induction coords with
  | nil => intro _ _ _ c hc; simp at hc
  | cons d rest ih =>
    intro acc res h c hc
    by_cases hio : (tileAt g d).kind = BlockKind.ioType
    · rw [visitInterior, if_pos hio] at h
      exact absurd h (by simp)
    · rcases List.mem_cons.mp hc with hcd | hcr
      · exact hcd ▸ hio
      · rw [visitInterior, if_neg hio] at h
        by_cases hemp : (tileAt g d).kind = BlockKind.emptyType
        · rw [if_pos hemp] at h
          exact ih _ _ h c hcr
        · rw [if_neg hemp] at h
          by_cases hoff : 0 < (tileAt g d).offset
          · rw [if_pos hoff] at h
            exact ih _ _ h c hcr
          · rw [if_neg hoff] at h
            exact ih _ _ h c hcr

/-- An I/O tile among the interior coordinates makes the core-grid loop
abort on its `assert`. -/
theorem visitInterior_error (g : Grid) (coords : List (Nat × Nat)) :
    ∀ acc (c : Nat × Nat), c ∈ coords → (tileAt g c).kind = BlockKind.ioType →
      ∃ pvs, visitInterior g coords acc = .error pvs := by
  induction coords with
  | nil => intro _ c hc _; simp at hc
  | cons d rest ih =>
    intro acc c hc hio
    by_cases hdio : (tileAt g d).kind = BlockKind.ioType
    · exact ⟨acc.1, by rw [visitInterior, if_pos hdio]⟩
    · have hcr : c ∈ rest := by
        rcases List.mem_cons.mp hc with hcd | hcr
        · exact absurd (hcd ▸ hio) hdio
        · exact hcr
      by_cases hemp : (tileAt g d).kind = BlockKind.emptyType
      · obtain ⟨pvs, hp⟩ := ih acc c hcr hio
        exact ⟨pvs, by rw [visitInterior, if_neg hdio, if_pos hemp]; exact hp⟩
      · by_cases hoff : 0 < (tileAt g d).offset
        · obtain ⟨pvs, hp⟩ := ih acc c hcr hio
          exact ⟨pvs, by rw [visitInterior, if_neg hdio, if_neg hemp, if_pos hoff]; exact hp⟩
        · obtain ⟨pvs, hp⟩ := ih
            (acc.1 ++ [d], compact_verilog_update_sram_orgz_info_grid_index acc.2 (tileAt g d) d)
            c hcr hio
          exact ⟨pvs, by rw [visitInterior, if_neg hdio, if_neg hemp, if_neg hoff]; exact hp⟩

/-- When every border tile is an I/O tile, the border loop completes and
processes every coordinate, in order. -/
theorem visitIOBorder_ok (g : Grid) (coords : List (Nat × Nat)) :
    ∀ acc : List (Nat × Nat) × SramOrgzInfo,
      (∀ c ∈ coords, (tileAt g c).kind = BlockKind.ioType) →
      visitIOBorder g coords acc = .ok (acc.1 ++ coords, applyVisits g acc.2 coords) := by
  induction coords with
  | nil => intro acc _; simp [visitIOBorder, applyVisits]
  | cons c rest ih =>
    intro acc h
    have hio : (tileAt g c).kind = BlockKind.ioType := h c (List.mem_cons_self c rest)
    have hrest : ∀ d ∈ rest, (tileAt g d).kind = BlockKind.ioType :=
      fun d hd => h d (List.mem_cons_of_mem c hd)
    rw [visitIOBorder, if_pos hio, ih _ hrest]
    simp [applyVisits_cons]

/-- A completed border loop certifies that every visited border tile was
an I/O tile. -/
theorem visitIOBorder_all_io (g : Grid) (coords : List (Nat × Nat)) :
    ∀ acc res, visitIOBorder g coords acc = .ok res →
      ∀ c ∈ coords, (tileAt g c).kind = BlockKind.ioType := by
  induction coords with
  | nil => intro _ _ _ c hc; simp at hc
  | cons d rest ih =>
    intro acc res h c hc
    by_cases hio : (tileAt g d).kind = BlockKind.ioType
    · rcases List.mem_cons.mp hc with hcd | hcr
      · exact hcd ▸ hio
      · rw [visitIOBorder, if_pos hio] at h
        exact ih _ _ h c hcr
    · rw [visitIOBorder, if_neg hio] at h
      exact absurd h (by simp)

/-- A run that completes normally certifies the device guard and all the
interior / border `assert` conditions. -/
theorem updGrid_ok_conditions (nx ny : Nat) (g : Grid) (info : SramOrgzInfo)
    (vs : List (Nat × Nat)) (finfo : SramOrgzInfo)
    (h : compact_verilog_update_grid_spice_model_and_sram_orgz_info nx ny g info =
      .ok vs finfo) :
    ¬ nx = 0 ∧ ¬ ny = 0 ∧
    (∀ c ∈ interiorCoords nx ny, (tileAt g c).kind ≠ BlockKind.ioType) ∧
    (∀ c ∈ topCoords nx ny, (tileAt g c).kind = BlockKind.ioType) ∧
    (∀ c ∈ rightCoords nx ny, (tileAt g c).kind = BlockKind.ioType) ∧
    (∀ c ∈ bottomCoords nx, (tileAt g c).kind = BlockKind.ioType) ∧
    (∀ c ∈ leftCoords ny, (tileAt g c).kind = BlockKind.ioType) := by
  rw [compact_verilog_update_grid_spice_model_and_sram_orgz_info] at h
  by_cases h0 : nx = 0 ∨ ny = 0
  · rw [if_pos h0] at h
    exact absurd h (by simp)
  · rw [if_neg h0] at h
    rcases hI : visitInterior g (interiorCoords nx ny) ([], info) with pvs | acc1
    · rw [hI] at h
      exact absurd h (by simp)
    · rw [hI] at h
      dsimp only at h
      have hint := visitInterior_no_io g _ _ _ hI
      rcases hT : visitIOBorder g (topCoords nx ny) acc1 with pvs | acc2
      · rw [hT] at h
        exact absurd h (by simp)
      · rw [hT] at h
        dsimp only at h
        have htop := visitIOBorder_all_io g _ _ _ hT
        rcases hR : visitIOBorder g (rightCoords nx ny) acc2 with pvs | acc3
        · rw [hR] at h
          exact absurd h (by simp)
        · rw [hR] at h
          dsimp only at h
          have hright := visitIOBorder_all_io g _ _ _ hR
          rcases hB : visitIOBorder g (bottomCoords nx) acc3 with pvs | acc4
          · rw [hB] at h
            exact absurd h (by simp)
          · rw [hB] at h
            dsimp only at h
            have hbot := visitIOBorder_all_io g _ _ _ hB
            rcases hL : visitIOBorder g (leftCoords ny) acc4 with pvs | acc5
            · rw [hL] at h
              exact absurd h (by simp)
            · rw [hL] at h
              dsimp only at h
              have hleft := visitIOBorder_all_io g _ _ _ hL
              exact ⟨fun hx => h0 (Or.inl hx), fun hy => h0 (Or.inr hy),
                hint, htop, hright, hbot, hleft⟩

/-- Under the device guard and the `assert` conditions, the pass
completes and produces exactly the canonical visit list and the SRAM
info obtained by folding the per-tile update along it. -/
theorem updGrid_eq_ok (nx ny : Nat) (g : Grid) (info : SramOrgzInfo)
    (hnx : ¬ nx = 0) (hny : ¬ ny = 0)
    (hint : ∀ c ∈ interiorCoords nx ny, (tileAt g c).kind ≠ BlockKind.ioType)
    (htop : ∀ c ∈ topCoords nx ny, (tileAt g c).kind = BlockKind.ioType)
    (hright : ∀ c ∈ rightCoords nx ny, (tileAt g c).kind = BlockKind.ioType)
    (hbot : ∀ c ∈ bottomCoords nx, (tileAt g c).kind = BlockKind.ioType)
    (hleft : ∀ c ∈ leftCoords ny, (tileAt g c).kind = BlockKind.ioType) :
    compact_verilog_update_grid_spice_model_and_sram_orgz_info nx ny g info =
      .ok (fullVisitList nx ny g) (applyVisits g info (fullVisitList nx ny g)) := by
  rw [compact_verilog_update_grid_spice_model_and_sram_orgz_info,
    if_neg (by tauto), visitInterior_ok g _ _ hint]
  dsimp only
  rw [visitIOBorder_ok g _ _ htop]
  dsimp only
  rw [visitIOBorder_ok g _ _ hright]
  dsimp only
  rw [visitIOBorder_ok g _ _ hbot]
  dsimp only
  rw [visitIOBorder_ok g _ _ hleft]
  dsimp only
  rw [fullVisitList]
  simp [applyVisits_append, List.append_assoc]

/-- Normal completion, stated through the `isOk` projection. -/
theorem updGrid_ok_spec (nx ny : Nat) (g : Grid) (info : SramOrgzInfo)
    (h : (compact_verilog_update_grid_spice_model_and_sram_orgz_info nx ny g info).isOk = true) :
    compact_verilog_update_grid_spice_model_and_sram_orgz_info nx ny g info =
      .ok (fullVisitList nx ny g) (applyVisits g info (fullVisitList nx ny g)) := by
  cases hcase : compact_verilog_update_grid_spice_model_and_sram_orgz_info nx ny g info with
  | deviceTooSmall i =>
    rw [hcase] at h
    simp [PassOutcome.isOk] at h
  | assertFail pvs =>
    rw [hcase] at h
    simp [PassOutcome.isOk] at h
  | ok vs finfo =>
    obtain ⟨hnx, hny, hint, htop, hright, hbot, hleft⟩ :=
      updGrid_ok_conditions nx ny g info vs finfo hcase
    rw [← hcase]
    exact updGrid_eq_ok nx ny g info hnx hny hint htop hright hbot hleft

/-- Visit list of a normally completed run. -/
theorem updGrid_okVisits (nx ny : Nat) (g : Grid) (info : SramOrgzInfo)
    (h : (compact_verilog_update_grid_spice_model_and_sram_orgz_info nx ny g info).isOk = true) :
    (compact_verilog_update_grid_spice_model_and_sram_orgz_info nx ny g info).okVisits =
      fullVisitList nx ny g := by
  rw [updGrid_ok_spec nx ny g info h]
  rfl

/-- Final SRAM info of a normally completed run. -/
theorem updGrid_okInfo (nx ny : Nat) (g : Grid) (info d : SramOrgzInfo)
    (h : (compact_verilog_update_grid_spice_model_and_sram_orgz_info nx ny g info).isOk = true) :
    (compact_verilog_update_grid_spice_model_and_sram_orgz_info nx ny g info).okInfo d =
      applyVisits g info (fullVisitList nx ny g) := by
  rw [updGrid_ok_spec nx ny g info h]
  rfl

/-- Membership characterization of the interior coordinate list. -/
theorem mem_interiorCoords (nx ny : Nat) (c : Nat × Nat) :
    c ∈ interiorCoords nx ny ↔ 1 ≤ c.1 ∧ c.1 ≤ nx ∧ 1 ≤ c.2 ∧ c.2 ≤ ny := by
  obtain ⟨x, y⟩ := c
  simp only [interiorCoords, List.mem_flatMap, List.mem_map, List.mem_range'_1, Prod.mk.injEq]
  constructor
  · rintro ⟨ix, ⟨h1, h2⟩, iy, ⟨h3, h4⟩, rfl, rfl⟩
    exact ⟨h1, by omega, h3, by omega⟩
  · rintro ⟨h1, h2, h3, h4⟩
    exact ⟨x, ⟨h1, by omega⟩, y, ⟨h3, by omega⟩, rfl, rfl⟩

/-- Membership characterization of the top border list. -/
theorem mem_topCoords (nx ny : Nat) (c : Nat × Nat) :
    c ∈ topCoords nx ny ↔ 1 ≤ c.1 ∧ c.1 ≤ nx ∧ c.2 = ny + 1 := by
  obtain ⟨x, y⟩ := c
  simp only [topCoords, List.mem_map, List.mem_range'_1, Prod.mk.injEq]
  constructor
  · rintro ⟨ix, ⟨h1, h2⟩, rfl, rfl⟩
    exact ⟨h1, by omega, rfl⟩
  · rintro ⟨h1, h2, rfl⟩
    exact ⟨x, ⟨h1, by omega⟩, rfl, rfl⟩

/-- Membership characterization of the right border list. -/
theorem mem_rightCoords (nx ny : Nat) (c : Nat × Nat) :
    c ∈ rightCoords nx ny ↔ c.1 = nx + 1 ∧ 1 ≤ c.2 ∧ c.2 ≤ ny := by
  obtain ⟨x, y⟩ := c
  simp only [rightCoords, List.mem_map, List.mem_range'_1, Prod.mk.injEq]
  constructor
  · rintro ⟨iy, ⟨h1, h2⟩, rfl, rfl⟩
    exact ⟨rfl, h1, by omega⟩
  · rintro ⟨rfl, h1, h2⟩
    exact ⟨y, ⟨h1, by omega⟩, rfl, rfl⟩

/-- Membership characterization of the bottom border list. -/
theorem mem_bottomCoords (nx : Nat) (c : Nat × Nat) :
    c ∈ bottomCoords nx ↔ 1 ≤ c.1 ∧ c.1 ≤ nx ∧ c.2 = 0 := by
  obtain ⟨x, y⟩ := c
  simp only [bottomCoords, List.mem_map, List.mem_range'_1, Prod.mk.injEq]
  constructor
  · rintro ⟨ix, ⟨h1, h2⟩, rfl, rfl⟩
    exact ⟨h1, by omega, rfl⟩
  · rintro ⟨h1, h2, rfl⟩
    exact ⟨x, ⟨h1, by omega⟩, rfl, rfl⟩

/-- Membership characterization of the left border list. -/
theorem mem_leftCoords (ny : Nat) (c : Nat × Nat) :
    c ∈ leftCoords ny ↔ c.1 = 0 ∧ 1 ≤ c.2 ∧ c.2 ≤ ny := by
  obtain ⟨x, y⟩ := c
  simp only [leftCoords, List.mem_map, List.mem_range'_1, Prod.mk.injEq]
  constructor
  · rintro ⟨iy, ⟨h1, h2⟩, rfl, rfl⟩
    exact ⟨rfl, h1, by omega⟩
  · rintro ⟨rfl, h1, h2⟩
    exact ⟨y, ⟨h1, by omega⟩, rfl, rfl⟩

/-- The interior coordinate list is the product of two ranges. -/
theorem interiorCoords_eq_product (nx ny : Nat) :
    interiorCoords nx ny = (List.range' 1 nx).product (List.range' 1 ny) :=
  rfl

/-- The interior coordinate list has no repeats. -/
theorem interiorCoords_nodup (nx ny : Nat) : (interiorCoords nx ny).Nodup := by
  rw [interiorCoords_eq_product]
  exact List.Nodup.product (List.nodup_range' 1 nx) (List.nodup_range' 1 ny)

/-- The top border list has no repeats. -/
theorem topCoords_nodup (nx ny : Nat) : (topCoords nx ny).Nodup :=
  (List.nodup_range' 1 nx).map (fun a b h => by
    simpa using congrArg Prod.fst h)

/-- The right border list has no repeats. -/
theorem rightCoords_nodup (nx ny : Nat) : (rightCoords nx ny).Nodup :=
  (List.nodup_range' 1 ny).map (fun a b h => by
    simpa using congrArg Prod.snd h)

/-- The bottom border list has no repeats. -/
theorem bottomCoords_nodup (nx : Nat) : (bottomCoords nx).Nodup :=
  (List.nodup_range' 1 nx).map (fun a b h => by
    simpa using congrArg Prod.fst h)

/-- The left border list has no repeats. -/
theorem leftCoords_nodup (ny : Nat) : (leftCoords ny).Nodup :=
  (List.nodup_range' 1 ny).map (fun a b h => by
    simpa using congrArg Prod.snd h)

/-- The full visit list of the pass has no repeated coordinate. -/
theorem fullVisitList_nodup (nx ny : Nat) (g : Grid) : (fullVisitList nx ny g).Nodup := by
  rw [fullVisitList]
  simp only [List.nodup_append, List.disjoint_append_left, List.disjoint_append_right]
  repeat' apply And.intro
  all_goals first
    | exact (interiorCoords_nodup nx ny).filter _
    | exact topCoords_nodup nx ny
    | exact rightCoords_nodup nx ny
    | exact bottomCoords_nodup nx
    | exact leftCoords_nodup ny
    | (intro c hc hc'
       first
         | have h1 := (mem_interiorCoords nx ny c).mp (List.mem_of_mem_filter hc)
         | have h1 := (mem_topCoords nx ny c).mp hc
         | have h1 := (mem_rightCoords nx ny c).mp hc
         | have h1 := (mem_bottomCoords nx c).mp hc
         | have h1 := (mem_leftCoords ny c).mp hc
       first
         | have h2 := (mem_topCoords nx ny c).mp hc'
         | have h2 := (mem_rightCoords nx ny c).mp hc'
         | have h2 := (mem_bottomCoords nx c).mp hc'
         | have h2 := (mem_leftCoords ny c).mp hc'
       omega)

/-- C4: if the device extents satisfy `nx = 0` or `ny = 0`, the
grid-index pass fails on the degenerate-device check: it returns
immediately with an error report, the SRAM organization info unchanged,
no visit performed and no `grid_conf_bits` entry written. -/
theorem device_too_small_no_updates (nx ny : Nat) (g : Grid) (info : SramOrgzInfo)
    (h : nx = 0 ∨ ny = 0) :
    compact_verilog_update_grid_spice_model_and_sram_orgz_info nx ny g info =
      PassOutcome.deviceTooSmall info ∧
    passVisits nx ny g info = [] ∧
    passInfo nx ny g info = info := by
  have heq : compact_verilog_update_grid_spice_model_and_sram_orgz_info nx ny g info =
      PassOutcome.deviceTooSmall info := by
    rw [compact_verilog_update_grid_spice_model_and_sram_orgz_info, if_pos h]
  refine ⟨heq, ?_, ?_⟩
  · rw [passVisits, heq]
    rfl
  · rw [passInfo, heq]
    rfl

theorem device_too_small_no_updates_witness :
    ((0 : Nat) = 0 ∨ (3 : Nat) = 0) ∧
    (compact_verilog_update_grid_spice_model_and_sram_orgz_info 0 3 gridW infoW =
      PassOutcome.deviceTooSmall infoW ∧
    passVisits 0 3 gridW infoW = [] ∧
    passInfo 0 3 gridW infoW = infoW) :=
  ⟨Or.inl rfl, device_too_small_no_updates 0 3 gridW infoW (Or.inl rfl)⟩

/-- C1: on a normally completed run started with counter 0, the regular
configuration-bit ranges of the successively visited tiles are
contiguous and non-overlapping: each visited tile's `grid_conf_bits_lsb`
equals the global counter value before its visit, its
`grid_conf_bits_msb` equals that lsb plus `capacity *
physical_mode_num_conf_bits`, the counter is advanced to exactly that
msb, and the half-open ranges `[lsb, msb)` cover `[0, total)` (the final
counter value) with no gaps and no overlaps. -/
theorem conf_bit_ranges_contiguous_cover (nx ny : Nat) (g : Grid) (info : SramOrgzInfo)
    (h0 : info.numMemBit = 0)
    (hok : (compact_verilog_update_grid_spice_model_and_sram_orgz_info nx ny g info).isOk = true) :
    (∀ i, i < (passVisits nx ny g info).length →
      (passInfo nx ny g info).gridConfBitsLsb ((passVisits nx ny g info).getD i (0, 0)) =
        counterBeforeVisit g info (passVisits nx ny g info) i ∧
      (passInfo nx ny g info).gridConfBitsMsb ((passVisits nx ny g info).getD i (0, 0)) =
        counterBeforeVisit g info (passVisits nx ny g info) i
          + (tileAt g ((passVisits nx ny g info).getD i (0, 0))).capacity
              * (tileAt g ((passVisits nx ny g info).getD i (0, 0))).modeConfBits ∧
      counterBeforeVisit g info (passVisits nx ny g info) (i + 1) =
        (passInfo nx ny g info).gridConfBitsMsb ((passVisits nx ny g info).getD i (0, 0))) ∧
    (∀ k, k < (passInfo nx ny g info).numMemBit →
      ∃ i, i < (passVisits nx ny g info).length ∧
        (passInfo nx ny g info).gridConfBitsLsb ((passVisits nx ny g info).getD i (0, 0)) ≤ k ∧
        k < (passInfo nx ny g info).gridConfBitsMsb ((passVisits nx ny g info).getD i (0, 0))) ∧
    (∀ i j, i < j → j < (passVisits nx ny g info).length →
      (passInfo nx ny g info).gridConfBitsMsb ((passVisits nx ny g info).getD i (0, 0)) ≤
        (passInfo nx ny g info).gridConfBitsLsb ((passVisits nx ny g info).getD j (0, 0))) := by
  have hv : passVisits nx ny g info = fullVisitList nx ny g := by
    rw [passVisits, updGrid_okVisits nx ny g info hok]
  have hf : passInfo nx ny g info = applyVisits g info (fullVisitList nx ny g) := by
    rw [passInfo, updGrid_okInfo nx ny g info info hok]
  rw [hv, hf]
  have hnd := fullVisitList_nodup nx ny g
  refine ⟨?_, ?_, ?_⟩
  · intro i hi
    have h := applyVisits_read g (fullVisitList nx ny g) info i hnd hi
    have hc := counterBeforeVisit_eq g info (fullVisitList nx ny g) i
    have hc1 := counterBeforeVisit_eq g info (fullVisitList nx ny g) (i + 1)
    have hts := sizesSum_take_succ g (fullVisitList nx ny g) i hi
    refine ⟨?_, ?_, ?_⟩
    · rw [h.1, hc]
    · rw [h.2.1, hc, tileSize]
    · rw [hc1, hts, h.2.1]
      omega
  · intro k hk
    rw [applyVisits_numMemBit, h0] at hk
    obtain ⟨i, hi, hle, hlt⟩ := sizesSum_cover g (fullVisitList nx ny g) k (by omega)
    have h := applyVisits_read g (fullVisitList nx ny g) info i hnd hi
    refine ⟨i, hi, ?_, ?_⟩
    · rw [h.1, h0]
      omega
    · rw [h.2.1, h0]
      omega
  · intro i j hij hj
    have hi : i < (fullVisitList nx ny g).length := by omega
    have h1 := applyVisits_read g (fullVisitList nx ny g) info i hnd hi
    have h2 := applyVisits_read g (fullVisitList nx ny g) info j hnd hj
    have hts := sizesSum_take_succ g (fullVisitList nx ny g) i hi
    have hmono := sizesSum_take_mono g (fullVisitList nx ny g) (i + 1) j (by omega)
    rw [h1.2.1, h2.1]
    omega

theorem conf_bit_ranges_contiguous_cover_witness :
    infoW.numMemBit = 0 ∧
    (compact_verilog_update_grid_spice_model_and_sram_orgz_info 1 1 gridW infoW).isOk = true ∧
    (∀ k, k < (passInfo 1 1 gridW infoW).numMemBit →
      ∃ i, i < (passVisits 1 1 gridW infoW).length ∧
        (passInfo 1 1 gridW infoW).gridConfBitsLsb ((passVisits 1 1 gridW infoW).getD i (0, 0)) ≤ k ∧
        k < (passInfo 1 1 gridW infoW).gridConfBitsMsb ((passVisits 1 1 gridW infoW).getD i (0, 0))) :=
  ⟨rfl, by decide,
    (conf_bit_ranges_contiguous_cover 1 1 gridW infoW rfl (by decide)).2.1⟩

/-- C2: a normally completed grid-index pass visits coordinates in
exactly the fixed order: interior tiles with `x` as the outer loop and
`y` as the inner loop (skipping `EMPTY` tiles and tiles with nonzero
grid offset), then the I/O perimeter in the order top, right, bottom,
left border; and the global configuration-bit counter is monotonically
non-decreasing along this visit sequence. -/
theorem grid_traversal_order_fixed (nx ny : Nat) (g : Grid) (info : SramOrgzInfo)
    (hok : (compact_verilog_update_grid_spice_model_and_sram_orgz_info nx ny g info).isOk = true) :
    passVisits nx ny g info =
      (interiorCoords nx ny).filter (processedTile g)
        ++ topCoords nx ny ++ rightCoords nx ny ++ bottomCoords nx ++ leftCoords ny ∧
    (∀ i j, i ≤ j →
      counterBeforeVisit g info (passVisits nx ny g info) i ≤
        counterBeforeVisit g info (passVisits nx ny g info) j) := by
  have hv : passVisits nx ny g info = fullVisitList nx ny g := by
    rw [passVisits, updGrid_okVisits nx ny g info hok]
  refine ⟨by rw [hv, fullVisitList], ?_⟩
  intro i j hij
  rw [counterBeforeVisit_eq, counterBeforeVisit_eq]
  have := sizesSum_take_mono g (passVisits nx ny g info) i j hij
  omega

theorem grid_traversal_order_fixed_witness :
    (compact_verilog_update_grid_spice_model_and_sram_orgz_info 1 1 gridW infoW).isOk = true ∧
    passVisits 1 1 gridW infoW =
      (interiorCoords 1 1).filter (processedTile gridW)
        ++ topCoords 1 1 ++ rightCoords 1 1 ++ bottomCoords 1 ++ leftCoords 1 :=
  ⟨by decide, (grid_traversal_order_fixed 1 1 gridW infoW (by decide)).1⟩

/-- C7: I/O tiles occur only on the device perimeter: whenever the
grid-index pass completes normally, every interior coordinate
(`1 ≤ x ≤ nx`, `1 ≤ y ≤ ny`) holds a non-I/O tile and every tile on the
four traversed border rows/columns is an I/O tile (so in particular
every non-empty border tile is I/O); an I/O tile at an interior
coordinate makes the pass abort on its `assert` instead of being
processed; and naming an I/O grid module requires a border side index
in `[0, 4)` (the prefix generator's `assert`, modelled as `none`). -/
theorem io_tiles_only_on_perimeter :
    (∀ (nx ny : Nat) (g : Grid) (info : SramOrgzInfo),
      (compact_verilog_update_grid_spice_model_and_sram_orgz_info nx ny g info).isOk = true →
      (∀ ix iy, 1 ≤ ix → ix ≤ nx → 1 ≤ iy → iy ≤ ny → (g ix iy).kind ≠ BlockKind.ioType) ∧
      (∀ ix, 1 ≤ ix → ix ≤ nx →
        (g ix (ny + 1)).kind = BlockKind.ioType ∧ (g ix 0).kind = BlockKind.ioType) ∧
      (∀ iy, 1 ≤ iy → iy ≤ ny →
        (g (nx + 1) iy).kind = BlockKind.ioType ∧ (g 0 iy).kind = BlockKind.ioType)) ∧
    (∀ (nx ny : Nat) (g : Grid) (info : SramOrgzInfo) (ix iy : Nat),
      ¬ nx = 0 → ¬ ny = 0 → 1 ≤ ix → ix ≤ nx → 1 ≤ iy → iy ≤ ny →
      (g ix iy).kind = BlockKind.ioType →
      (compact_verilog_update_grid_spice_model_and_sram_orgz_info nx ny g info).isAssertFail
        = true) ∧
    (∀ (stem : String) (sideStr : Int → String) (side : Int),
      (generate_compact_verilog_grid_module_name_head stem sideStr
          BlockKind.ioType side).isSome = true ↔ 0 ≤ side ∧ side < 4) := by
  refine ⟨?_, ?_, ?_⟩
  · intro nx ny g info hok
    obtain ⟨hnx, hny, hint, htop, hright, hbot, hleft⟩ :=
      updGrid_ok_conditions nx ny g info (fullVisitList nx ny g)
        (applyVisits g info (fullVisitList nx ny g)) (updGrid_ok_spec nx ny g info hok)
    refine ⟨?_, ?_, ?_⟩
    · intro ix iy h1 h2 h3 h4
      exact hint (ix, iy) ((mem_interiorCoords nx ny (ix, iy)).mpr ⟨h1, h2, h3, h4⟩)
    · intro ix h1 h2
      exact ⟨htop (ix, ny + 1) ((mem_topCoords nx ny (ix, ny + 1)).mpr ⟨h1, h2, rfl⟩),
        hbot (ix, 0) ((mem_bottomCoords nx (ix, 0)).mpr ⟨h1, h2, rfl⟩)⟩
    · intro iy h1 h2
      exact ⟨hright (nx + 1, iy) ((mem_rightCoords nx ny (nx + 1, iy)).mpr ⟨rfl, h1, h2⟩),
        hleft (0, iy) ((mem_leftCoords ny (0, iy)).mpr ⟨rfl, h1, h2⟩)⟩
  · intro nx ny g info ix iy hnx hny h1 h2 h3 h4 hio
    obtain ⟨pvs, hp⟩ := visitInterior_error g (interiorCoords nx ny) ([], info) (ix, iy)
      ((mem_interiorCoords nx ny (ix, iy)).mpr ⟨h1, h2, h3, h4⟩) hio
    rw [compact_verilog_update_grid_spice_model_and_sram_orgz_info, if_neg (by tauto), hp]
    rfl
  · intro stem sideStr side
    rw [generate_compact_verilog_grid_module_name_head, if_pos rfl]
    by_cases h : -1 < side ∧ side < 4
    · rw [if_pos h]
      simp only [Option.isSome_some]
      constructor
      · intro _
        omega
      · intro _
        trivial
    · rw [if_neg h]
      simp only [Option.isSome_none]
      constructor
      · intro hfalse
        exact absurd hfalse (by simp)
      · intro hrange
        omega

theorem io_tiles_only_on_perimeter_witness :
    ((gridW 1 2).kind = BlockKind.ioType ∧ (gridW 1 0).kind = BlockKind.ioType) ∧
    (compact_verilog_update_grid_spice_model_and_sram_orgz_info 1 1 gridBad infoW).isAssertFail
      = true ∧
    ((generate_compact_verilog_grid_module_name_head "g" (fun _ => "s")
        BlockKind.ioType 5).isSome = true ↔ 0 ≤ (5 : Int) ∧ (5 : Int) < 4) :=
  ⟨(io_tiles_only_on_perimeter.1 1 1 gridW infoW (by decide)).2.1 1 (by decide) (by decide),
   io_tiles_only_on_perimeter.2.1 1 1 gridBad infoW 1 1 (by decide) (by decide) (by decide)
     (by decide) (by decide) (by decide) (by decide),
   io_tiles_only_on_perimeter.2.2 "g" (fun _ => "s") 5⟩

/-- C5 as stated is refuted on a concrete run: visiting the tile at
(1,1) (3 regular, 2 reserved bits) and then the tile at (1,2) of the
witness device, the counter before the second visit is 3, but the
reserved range of every tile is dumped starting at 0, and the counter
advances only by the regular width (3), not by reserved + regular (5). -/
theorem reserved_range_not_from_counter_cex :
    ¬ reservedAndRegularAllocatedFromCounter gridW infoW [(1, 1), (1, 2)] := by
  unfold reservedAndRegularAllocatedFromCounter
  decide

/-- C5 amended: only the regular configuration-bit range is allocated
from the monotonically increasing global counter: on a normally
completed run, each visited tile's regular range starts at the counter
value before the visit, spans `capacity * physical_mode_num_conf_bits`
bits, and advances the counter to exactly its msb; the reserved range is
not allocated from the counter: the pass stores only the tile's reserved
width, and the reserved ports are always dumped over `[0, width - 1]`
regardless of the counter. -/
theorem regular_from_counter_reserved_width_only (nx ny : Nat) (g : Grid) (info : SramOrgzInfo)
    (hok : (compact_verilog_update_grid_spice_model_and_sram_orgz_info nx ny g info).isOk = true) :
    ∀ i, i < (passVisits nx ny g info).length →
      (passInfo nx ny g info).gridConfBitsLsb ((passVisits nx ny g info).getD i (0, 0)) =
        counterBeforeVisit g info (passVisits nx ny g info) i ∧
      counterBeforeVisit g info (passVisits nx ny g info) (i + 1) =
        counterBeforeVisit g info (passVisits nx ny g info) i
          + tileSize (tileAt g ((passVisits nx ny g info).getD i (0, 0))) ∧
      dump_compact_verilog_defined_one_grid_conf_ranges (passInfo nx ny g info)
          ((passVisits nx ny g info).getD i (0, 0)) =
        { reservedLsbMsb :=
            (0, (tileAt g ((passVisits nx ny g info).getD i (0, 0))).modeReservedConfBits - 1)
          regularLsbMsb :=
            ((passInfo nx ny g info).gridConfBitsLsb ((passVisits nx ny g info).getD i (0, 0)),
             (passInfo nx ny g info).gridConfBitsMsb ((passVisits nx ny g info).getD i (0, 0))
               - 1) } := by
  have hv : passVisits nx ny g info = fullVisitList nx ny g := by
    rw [passVisits, updGrid_okVisits nx ny g info hok]
  have hf : passInfo nx ny g info = applyVisits g info (fullVisitList nx ny g) := by
    rw [passInfo, updGrid_okInfo nx ny g info info hok]
  rw [hv, hf]
  have hnd := fullVisitList_nodup nx ny g
  intro i hi
  have h := applyVisits_read g (fullVisitList nx ny g) info i hnd hi
  have hc := counterBeforeVisit_eq g info (fullVisitList nx ny g) i
  have hc1 := counterBeforeVisit_eq g info (fullVisitList nx ny g) (i + 1)
  have hts := sizesSum_take_succ g (fullVisitList nx ny g) i hi
  refine ⟨?_, ?_, ?_⟩
  · rw [h.1, hc]
  · rw [hc1, hts, hc]
    omega
  · rw [dump_compact_verilog_defined_one_grid_conf_ranges, h.2.2]

theorem regular_from_counter_reserved_width_only_witness :
    (compact_verilog_update_grid_spice_model_and_sram_orgz_info 1 1 gridW infoW).isOk = true ∧
    0 < (passVisits 1 1 gridW infoW).length ∧
    ((passInfo 1 1 gridW infoW).gridConfBitsLsb ((passVisits 1 1 gridW infoW).getD 0 (0, 0)) =
        counterBeforeVisit gridW infoW (passVisits 1 1 gridW infoW) 0 ∧
      counterBeforeVisit gridW infoW (passVisits 1 1 gridW infoW) 1 =
        counterBeforeVisit gridW infoW (passVisits 1 1 gridW infoW) 0
          + tileSize (tileAt gridW ((passVisits 1 1 gridW infoW).getD 0 (0, 0))) ∧
      dump_compact_verilog_defined_one_grid_conf_ranges (passInfo 1 1 gridW infoW)
          ((passVisits 1 1 gridW infoW).getD 0 (0, 0)) =
        { reservedLsbMsb :=
            (0, (tileAt gridW ((passVisits 1 1 gridW infoW).getD 0 (0, 0))).modeReservedConfBits
              - 1)
          regularLsbMsb :=
            ((passInfo 1 1 gridW infoW).gridConfBitsLsb
              ((passVisits 1 1 gridW infoW).getD 0 (0, 0)),
             (passInfo 1 1 gridW infoW).gridConfBitsMsb
              ((passVisits 1 1 gridW infoW).getD 0 (0, 0)) - 1) }) :=
  ⟨by decide, by decide,
    regular_from_counter_reserved_width_only 1 1 gridW infoW (by decide) 0 (by decide)⟩

/-- Membership characterization of the connection-box dump: an emission
appears iff some in-range coordinate and channel type pass both
existence checks and the emission is the one printed there. -/
theorem mem_dump_connection_boxes {α : Type} (rx ry : Nat)
    (is_cb_exist : ChanType → Nat × Nat → Bool)
    (get_cb_coordinator : Nat × Nat → ChanType → Nat × Nat)
    (gsb_is_cb_exist : Nat × Nat → ChanType → Bool)
    (get_cb_unique_module : ChanType → Nat × Nat → Nat × Nat)
    (gen_cb_verilog_module_name gen_cb_verilog_instance_name : ChanType → Nat × Nat → α)
    (e : CBEmission α) :
    e ∈ dump_compact_verilog_defined_connection_boxes rx ry is_cb_exist get_cb_coordinator
        gsb_is_cb_exist get_cb_unique_module gen_cb_verilog_module_name
        gen_cb_verilog_instance_name ↔
      ∃ ix iy t, ix < rx ∧ iy < ry ∧
        is_cb_exist t (get_cb_coordinator (ix, iy) t) = true ∧
        gsb_is_cb_exist (ix, iy) t = true ∧
        e = dump_compact_verilog_defined_one_connection_box get_cb_unique_module
              gen_cb_verilog_module_name gen_cb_verilog_instance_name t (ix, iy) := by
  simp only [dump_compact_verilog_defined_connection_boxes, List.mem_flatMap,
    List.mem_range, List.mem_append]
  constructor
  · rintro ⟨ix, hix, iy, hiy, h | h⟩
    · by_cases hc : (is_cb_exist ChanType.chanx (get_cb_coordinator (ix, iy) ChanType.chanx)
          && gsb_is_cb_exist (ix, iy) ChanType.chanx) = true
      · rw [if_pos hc] at h
        rcases Bool.and_eq_true_iff.mp hc with ⟨hc1, hc2⟩
        simp only [List.mem_singleton] at h
        exact ⟨ix, iy, ChanType.chanx, hix, hiy, hc1, hc2, h⟩
      · rw [if_neg hc] at h
        simp at h
    · by_cases hc : (is_cb_exist ChanType.chany (get_cb_coordinator (ix, iy) ChanType.chany)
          && gsb_is_cb_exist (ix, iy) ChanType.chany) = true
      · rw [if_pos hc] at h
        rcases Bool.and_eq_true_iff.mp hc with ⟨hc1, hc2⟩
        simp only [List.mem_singleton] at h
        exact ⟨ix, iy, ChanType.chany, hix, hiy, hc1, hc2, h⟩
      · rw [if_neg hc] at h
        simp at h
  · rintro ⟨ix, iy, t, hix, hiy, h1, h2, rfl⟩
    refine ⟨ix, hix, iy, hiy, ?_⟩
    cases t
    · exact Or.inl (by rw [if_pos (by rw [h1, h2]; rfl)]; exact List.mem_singleton.mpr rfl)
    · exact Or.inr (by rw [if_pos (by rw [h1, h2]; rfl)]; exact List.mem_singleton.mpr rfl)

/-- C3: the emitted netlist instantiates representatives: the
switch-block dump emits, for every GSB coordinate in scan order, exactly
one instantiation whose module name is generated from the representative
returned by `get_sb_unique_module` and whose instance name is generated
from the block's own coordinate (so with an injective instance-name
generator, each physical location is instantiated exactly once); and
every connection-box emission names the representative returned by
`get_cb_unique_module` while its instance name comes from its own
coordinate. -/
theorem sb_cb_instances_use_unique_module {α : Type} [DecidableEq α] (rx ry : Nat)
    (get_sb_unique_module : Nat × Nat → Nat × Nat)
    (gen_sb_verilog_module_name gen_sb_verilog_instance_name : Nat × Nat → α)
    (is_cb_exist : ChanType → Nat × Nat → Bool)
    (get_cb_coordinator : Nat × Nat → ChanType → Nat × Nat)
    (gsb_is_cb_exist : Nat × Nat → ChanType → Bool)
    (get_cb_unique_module : ChanType → Nat × Nat → Nat × Nat)
    (gen_cb_verilog_module_name gen_cb_verilog_instance_name : ChanType → Nat × Nat → α) :
    dump_compact_verilog_defined_switch_boxes rx ry get_sb_unique_module
        gen_sb_verilog_module_name gen_sb_verilog_instance_name =
      (gsbCoords rx ry).map (fun c =>
        { moduleName := gen_sb_verilog_module_name (get_sb_unique_module c)
          instName := gen_sb_verilog_instance_name c }) ∧
    (gsbCoords rx ry).Nodup ∧
    (Function.Injective gen_sb_verilog_instance_name →
      ∀ c ∈ gsbCoords rx ry,
        ((dump_compact_verilog_defined_switch_boxes rx ry get_sb_unique_module
            gen_sb_verilog_module_name gen_sb_verilog_instance_name).map
          SBEmission.instName).count (gen_sb_verilog_instance_name c) = 1) ∧
    (∀ e ∈ dump_compact_verilog_defined_connection_boxes rx ry is_cb_exist
        get_cb_coordinator gsb_is_cb_exist get_cb_unique_module
        gen_cb_verilog_module_name gen_cb_verilog_instance_name,
      e.moduleName = gen_cb_verilog_module_name e.cbType (get_cb_unique_module e.cbType e.coord) ∧
      e.instName = gen_cb_verilog_instance_name e.cbType e.coord) := by
  have hnodup : (gsbCoords rx ry).Nodup := by
    show ((List.range rx).product (List.range ry)).Nodup
    exact List.Nodup.product (List.nodup_range rx) (List.nodup_range ry)
  have hmap : dump_compact_verilog_defined_switch_boxes rx ry get_sb_unique_module
      gen_sb_verilog_module_name gen_sb_verilog_instance_name =
      (gsbCoords rx ry).map (fun c =>
        { moduleName := gen_sb_verilog_module_name (get_sb_unique_module c)
          instName := gen_sb_verilog_instance_name c }) := by
    rw [dump_compact_verilog_defined_switch_boxes, gsbCoords, List.map_flatMap]
    simp [List.map_map, dump_compact_verilog_defined_one_switch_box, Function.comp_def]
  refine ⟨hmap, hnodup, ?_, ?_⟩
  · intro hinj c hc
    rw [hmap, List.map_map]
    have hcomp : (SBEmission.instName ∘ fun c =>
        ({ moduleName := gen_sb_verilog_module_name (get_sb_unique_module c)
           instName := gen_sb_verilog_instance_name c } : SBEmission α)) =
        gen_sb_verilog_instance_name := rfl
    rw [hcomp]
    exact List.count_eq_one_of_mem (hnodup.map hinj) (List.mem_map_of_mem _ hc)
  · intro e he
    rw [mem_dump_connection_boxes] at he
    obtain ⟨ix, iy, t, _, _, _, _, rfl⟩ := he
    exact ⟨rfl, rfl⟩

theorem sb_cb_instances_use_unique_module_witness :
    (0, 0) ∈ gsbCoords 1 1 ∧
    ((dump_compact_verilog_defined_switch_boxes 1 1 sbUniqueId sbNamePair id).map
      SBEmission.instName).count (id ((0, 0) : Nat × Nat)) = 1 :=
  ⟨by decide,
    (sb_cb_instances_use_unique_module 1 1 sbUniqueId sbNamePair id cbAllExist cbCoordId
      gsbAllExist cbUniqueId cbNamePair cbNamePair).2.2.1
      Function.injective_id (0, 0) (by decide)⟩

/-- C6: a connection-box instantiation is emitted at a GSB coordinate
for a channel type iff both existence checks pass there: the
device-level `is_cb_exist` test on the CB coordinator and the per-GSB
`is_cb_exist` test; when either check fails nothing is emitted for that
connection block. -/
theorem cb_emitted_iff_exists_checks {α : Type} (rx ry : Nat)
    (is_cb_exist : ChanType → Nat × Nat → Bool)
    (get_cb_coordinator : Nat × Nat → ChanType → Nat × Nat)
    (gsb_is_cb_exist : Nat × Nat → ChanType → Bool)
    (get_cb_unique_module : ChanType → Nat × Nat → Nat × Nat)
    (gen_cb_verilog_module_name gen_cb_verilog_instance_name : ChanType → Nat × Nat → α)
    (ix iy : Nat) (t : ChanType) (hix : ix < rx) (hiy : iy < ry) :
    (∃ e ∈ dump_compact_verilog_defined_connection_boxes rx ry is_cb_exist
        get_cb_coordinator gsb_is_cb_exist get_cb_unique_module
        gen_cb_verilog_module_name gen_cb_verilog_instance_name,
      e.cbType = t ∧ e.coord = (ix, iy)) ↔
    (is_cb_exist t (get_cb_coordinator (ix, iy) t) = true ∧
      gsb_is_cb_exist (ix, iy) t = true) := by
  constructor
  · rintro ⟨e, he, ht, hcoord⟩
    rw [mem_dump_connection_boxes] at he
    obtain ⟨ix', iy', t', _, _, h1, h2, rfl⟩ := he
    simp only [dump_compact_verilog_defined_one_connection_box] at ht hcoord
    obtain ⟨rfl, rfl⟩ : ix' = ix ∧ iy' = iy := by
      exact ⟨congrArg Prod.fst hcoord, congrArg Prod.snd hcoord⟩
    subst ht
    exact ⟨h1, h2⟩
  · rintro ⟨h1, h2⟩
    exact ⟨dump_compact_verilog_defined_one_connection_box get_cb_unique_module
        gen_cb_verilog_module_name gen_cb_verilog_instance_name t (ix, iy),
      (mem_dump_connection_boxes rx ry is_cb_exist get_cb_coordinator gsb_is_cb_exist
        get_cb_unique_module gen_cb_verilog_module_name gen_cb_verilog_instance_name
        _).mpr ⟨ix, iy, t, hix, hiy, h1, h2, rfl⟩, rfl, rfl⟩

theorem cb_emitted_iff_exists_checks_witness :
    (0 : Nat) < 1 ∧
    ((∃ e ∈ dump_compact_verilog_defined_connection_boxes 1 1 cbAllExist cbCoordId
        gsbAllExist cbUniqueId cbNamePair cbNamePair,
      e.cbType = ChanType.chanx ∧ e.coord = (0, 0)) ↔
    (cbAllExist ChanType.chanx (cbCoordId (0, 0) ChanType.chanx) = true ∧
      gsbAllExist (0, 0) ChanType.chanx = true)) :=
  ⟨by decide,
    cb_emitted_iff_exists_checks 1 1 cbAllExist cbCoordId gsbAllExist cbUniqueId
      cbNamePair cbNamePair 0 0 ChanType.chanx (by decide) (by decide)⟩
